import Mathlib

/-!
Shallow embedding of the EE2 multiplayer session core: the client-side
position clamp and peer/table management from `client/src/game.ts`
(the extended variant of the same file appears as `unnamed/part_000`),
and the room-side state machine (join/leave, position update, signal
relay), whose server source (`server/src/rooms/MyRoom.ts`) is not in
the source tree and is therefore modelled from the spec.

JavaScript numbers are embedded as `JSNum`: either NaN, one of the two
infinities, or a finite value represented as a rational.  The only
numeric operations the clamp performs are comparisons against the
finite literals 245 and -245, and for those IEEE-754 semantics agree
with this embedding (`NaN` compares false with everything; infinities
compare as expected; finite doubles compare like the rationals they
denote).
-/

/-- A JavaScript number: NaN, +Infinity, -Infinity, or a finite value. -/
inductive JSNum where
  | nan : JSNum
  | posInf : JSNum
  | negInf : JSNum
  | num : ℚ → JSNum
deriving DecidableEq, Repr

/-- JS `a > c` where `c` is a finite literal: NaN compares false. -/
def JSNum.jsGt : JSNum → ℚ → Bool
  | .nan, _ => false
  | .posInf, _ => true
  | .negInf, _ => false
  | .num q, c => decide (c < q)

/-- JS `a < c` where `c` is a finite literal: NaN compares false. -/
def JSNum.jsLt : JSNum → ℚ → Bool
  | .nan, _ => false
  | .posInf, _ => false
  | .negInf, _ => true
  | .num q, c => decide (q < c)

/-- `true` exactly for finite values (neither NaN nor an infinity). -/
def JSNum.isFinite : JSNum → Bool
  | .num _ => true
  | _ => false

/-- A BabylonJS `Vector3` as used for positions. -/
structure Vec3 where
  x : JSNum
  y : JSNum
  z : JSNum
deriving DecidableEq, Repr

/-- `const BOUNDARY_LIMIT = 245` from the client source. -/
def BOUNDARY_LIMIT : ℚ := 245

/-- `clampToBoundaries` from `unnamed/part_000` lines 557-567:
clones the position, forces `y = -1`, then clamps `x` and `z` to
`±BOUNDARY_LIMIT` with `if (v > L) v = L; else if (v < -L) v = -L`.
The inline clamp in `game.ts` `bootstrap` (lines 181-195) is the same
algorithm with the literal 245. -/
def clampToBoundaries (position : Vec3) : Vec3 :=
  let p1 : Vec3 := { position with y := .num (-1) }
  let p2 : Vec3 :=
    if p1.x.jsGt BOUNDARY_LIMIT then { p1 with x := .num BOUNDARY_LIMIT }
    else if p1.x.jsLt (-BOUNDARY_LIMIT) then { p1 with x := .num (-BOUNDARY_LIMIT) }
    else p1
  if p2.z.jsGt BOUNDARY_LIMIT then { p2 with z := .num BOUNDARY_LIMIT }
  else if p2.z.jsLt (-BOUNDARY_LIMIT) then { p2 with z := .num (-BOUNDARY_LIMIT) }
  else p2

/-- The `updatePosition` message body `{x, y, z}` the client sends. -/
structure UpdatePositionMsg where
  x : JSNum
  y : JSNum
  z : JSNum
deriving DecidableEq, Repr

/-- `updatePlayerPosition` from `unnamed/part_000` lines 569-579:
clamps the proposed position, stores it as the local next position,
and sends `updatePosition {x, y, z}` with the clamped coordinates.
Returns (new local next position, message sent to the server). -/
def updatePlayerPosition (newPosition : Vec3) : Vec3 × UpdatePositionMsg :=
  let clampedPosition := clampToBoundaries newPosition
  (clampedPosition,
   { x := clampedPosition.x, y := clampedPosition.y, z := clampedPosition.z })

/-! ## Room-side state (server)

`server/src/rooms/MyRoom.ts` and its state schema are not in the
source tree (only their tests and the client are), so the room's
handlers are modelled from the spec.  The replicated room state is the
players map: sessionId to Participant, in insertion order.  Positions
held by the room are the spec's "three numeric coordinates"; the room
model uses rationals, the NaN policy being explicitly left open by the
spec. -/

/-- A Participant record of the Replicated Room State: a position. -/
structure Participant where
  x : ℚ
  y : ℚ
  z : ℚ
deriving DecidableEq, Repr

/-- The Replicated Room State players map, keyed by sessionId, in
insertion order. -/
abbrev RoomPlayers := List (String × Participant)

/-- Whether a sessionId is present in the players map. -/
def hasPlayer (s : RoomPlayers) (k : String) : Bool :=
  s.any (fun e => e.1 == k)

/-- Modelled from the spec: `onJoin(sessionId)` of the Participant
Lifecycle Manager (server room source missing from the tree).  Inserts
a Participant with a spawn position; a duplicate join for an active
sessionId is rejected, leaving the state unchanged ("policy here is
reject"). -/
def onJoin (s : RoomPlayers) (k : String) (p : Participant) : RoomPlayers :=
  if hasPlayer s k then s else s ++ [(k, p)]

/-- Modelled from the spec: `onLeave(sessionId)` of the Participant
Lifecycle Manager (server room source missing from the tree).  Removes
the Participant; leaving a sessionId not present is a no-op. -/
def onLeave (s : RoomPlayers) (k : String) : RoomPlayers :=
  s.filter (fun e => e.1 != k)

/-- Modelled from the spec: the Position Update Handler's clamp of one
coordinate to the symmetric boundary ±245 (server room source missing
from the tree). -/
def specClampCoord (c : ℚ) : ℚ :=
  if c > 245 then 245 else if c < -245 then -245 else c

/-- Modelled from the spec: the room's `updatePosition` handler
(server room source missing from the tree).  Clamps `x` and `z` to
±245, force-sets `y` to -1 discarding the client-proposed vertical
value, and stores the result as the sender's position in the
Replicated Room State. -/
def roomUpdatePosition (s : RoomPlayers) (k : String) (x _y z : ℚ) : RoomPlayers :=
  s.map (fun e => if e.1 == k then (e.1, ⟨specClampCoord x, -1, specClampCoord z⟩) else e)

/-- A `signal` envelope as a client sends it: `{to, type, payload}`,
possibly carrying a forged `from` field, which the relay must ignore.
The payload is opaque to the relay (type parameter). -/
structure SignalIn (α : Type) where
  «to» : String
  claimedFrom : Option String
  type : String
  payload : α
deriving DecidableEq, Repr

/-- A `signal` envelope as delivered to a client: `{from, type, payload}`
with `from` attached by the relay. -/
structure SignalOut (α : Type) where
  «from» : String
  type : String
  payload : α
deriving DecidableEq, Repr

/-- Modelled from the spec: the Signaling Relay (server room source
missing from the tree).  `from` is taken to be the sender's own
sessionId; if `to` is present in the room the envelope is forwarded
verbatim to that one connection, otherwise it is dropped silently.
Returns the (unchanged) room state and the list of
(recipient, delivered message) pairs. -/
def relaySignal (s : RoomPlayers) (sender : String) (m : SignalIn α) :
    RoomPlayers × List (String × SignalOut α) :=
  if hasPlayer s m.«to» then
    (s, [(m.«to», { «from» := sender, type := m.type, payload := m.payload })])
  else
    (s, [])

/-! ## Client-side state

From `client/src/game.ts` (and identically `unnamed/part_000`): the
per-client tables keyed by sessionId — `playerEntities` (meshes),
`playerNextPosition` (interpolation targets), `peers`
(RTCPeerConnection handles), `videoMeshes` (video planes).  Handles
are opaque; they are embedded as natural-number identifiers. -/

/-- The four per-client tables of `Game`, keyed by sessionId. -/
structure ClientState where
  playerEntities : List (String × Nat)
  playerNextPosition : List (String × Vec3)
  peers : List (String × Nat)
  videoMeshes : List (String × Nat)
deriving DecidableEq, Repr

/-- Lookup of `table[sessionId]` in a client table. -/
def tblGet (t : List (String × β)) (k : String) : Option β :=
  (t.find? (fun e => e.1 == k)).map Prod.snd

/-- `delete table[sessionId]` on a client table. -/
def tblDel (t : List (String × β)) (k : String) : List (String × β) :=
  t.filter (fun e => e.1 != k)

/-- The `players.onRemove` handler registered in `initPlayers`
(`game.ts` lines 68-82): three independent guarded teardowns — if a
player mesh exists, dispose it and delete the mesh and next-position
entries; if a peer connection exists, close and delete it; if a video
mesh exists, dispose and delete it. -/
def playersOnRemove (st : ClientState) (sessionId : String) : ClientState :=
  let st1 :=
    if (tblGet st.playerEntities sessionId).isSome then
      { st with playerEntities := tblDel st.playerEntities sessionId,
                playerNextPosition := tblDel st.playerNextPosition sessionId }
    else st
  let st2 :=
    if (tblGet st1.peers sessionId).isSome then
      { st1 with peers := tblDel st1.peers sessionId }
    else st1
  if (tblGet st2.videoMeshes sessionId).isSome then
    { st2 with videoMeshes := tblDel st2.videoMeshes sessionId }
  else st2

/-- The offer-initiation tie-break in `createPeerConnection`
(`game.ts` line 264): `this.room.sessionId > remoteSessionId`, a strict
string comparison; only the greater side installs the offer logic. -/
def initiatesOffer (ownSessionId remoteSessionId : String) : Bool :=
  decide (remoteSessionId < ownSessionId)

/-- A `signal` message sent by the client back to the room:
`{to, type, payload}`. -/
structure ClientSend (α : Type) where
  «to» : String
  type : String
  payload : α
deriving DecidableEq, Repr

/-- The `signal` message handler registered in `initSignalHandler`
(`game.ts` lines 293-318): looks up `peers[from]`; if absent, returns
at once (warn only) — no state change, no reply.  If present, an
"offer" is answered with a `signal {to: from, type: "answer"}` whose
payload comes from the RTC engine (abstracted as `mkAnswer` of the
peer handle); "answer" and "candidate" act only on the RTC handle.
Returns (client state after, messages sent). -/
def onSignalMessage (st : ClientState) (m : SignalOut α) (mkAnswer : Nat → α) :
    ClientState × List (ClientSend α) :=
  match tblGet st.peers m.«from» with
  | none => (st, [])
  | some pc =>
    if m.type == "offer" then
      (st, [{ «to» := m.«from», type := "answer", payload := mkAnswer pc }])
    else
      (st, [])

/-- A lifecycle event of the room: a connection joins (with its spawn
position) or leaves. -/
inductive RoomEvent where
  | join (k : String) (p : Participant)
  | leave (k : String)
deriving DecidableEq, Repr

/-- Apply one lifecycle event to the Replicated Room State. -/
def applyEvent (s : RoomPlayers) : RoomEvent → RoomPlayers
  | .join k p => onJoin s k p
  | .leave k => onLeave s k

/-- Apply a sequence of lifecycle events, in arrival order. -/
def applyEvents (s : RoomPlayers) (evs : List RoomEvent) : RoomPlayers :=
  evs.foldl applyEvent s

/-- The claim's reference set, from its words: one step of "the set of
sessionIds that have joined and not subsequently left". -/
def joinedNotLeftStep (acc : Finset String) : RoomEvent → Finset String
  | .join k _ => insert k acc
  | .leave k => acc.erase k

/-- The claim's reference set, from its words: the sessionIds that have
joined and not subsequently left, after a sequence of events. -/
def joinedNotLeft (evs : List RoomEvent) : Finset String :=
  evs.foldl joinedNotLeftStep ∅

/-! ## Helper lemmas -/

theorem hasPlayer_iff_mem_keys (s : RoomPlayers) (k : String) :
    hasPlayer s k = true ↔ k ∈ s.map Prod.fst := by
  simp [hasPlayer, List.any_eq_true, List.mem_map]

theorem hasPlayer_onLeave (s : RoomPlayers) (j k : String) :
    hasPlayer (onLeave s j) k = true ↔ (hasPlayer s k = true ∧ k ≠ j) := by
  simp [hasPlayer, onLeave, List.any_eq_true, List.mem_filter, bne_iff_ne]

theorem nodup_keys_applyEvent (s : RoomPlayers) (e : RoomEvent)
    (h : (s.map Prod.fst).Nodup) : ((applyEvent s e).map Prod.fst).Nodup := by
  cases e with
  | join k p =>
    by_cases hk : hasPlayer s k
    · simpa [applyEvent, onJoin, hk] using h
    · have hk' : k ∉ s.map Prod.fst := fun hm =>
        hk ((hasPlayer_iff_mem_keys s k).mpr hm)
      simp only [applyEvent, onJoin, hk, if_neg, Bool.false_eq_true, not_false_iff,
        if_false, List.map_append, List.map_cons, List.map_nil]
      simp [List.nodup_append, h, hk']
  | leave k =>
    have hsub : ((onLeave s k).map Prod.fst).Sublist (s.map Prod.fst) :=
      (List.filter_sublist s).map Prod.fst
    exact h.sublist hsub

theorem hasPlayer_applyEvent (s : RoomPlayers) (acc : Finset String) (e : RoomEvent)
    (hmem : ∀ k, hasPlayer s k = true ↔ k ∈ acc) (k : String) :
    hasPlayer (applyEvent s e) k = true ↔ k ∈ joinedNotLeftStep acc e := by
  cases e with
  | join j p =>
    by_cases hj : hasPlayer s j
    · have hjacc : j ∈ acc := (hmem j).mp hj
      simp only [applyEvent, onJoin, hj, if_true, joinedNotLeftStep, Finset.mem_insert]
      rw [hmem k]
      constructor
      · exact Or.inr
      · rintro (rfl | hk)
        · exact hjacc
        · exact hk
    · simp only [applyEvent, onJoin, hj, Bool.false_eq_true, if_false, joinedNotLeftStep,
        Finset.mem_insert]
      rw [show hasPlayer (s ++ [(j, p)]) k = (hasPlayer s k || (j == k)) by
        simp [hasPlayer, List.any_append]]
      simp [hmem k, beq_iff_eq]
      tauto
  | leave j =>
    rw [show applyEvent s (.leave j) = onLeave s j from rfl, hasPlayer_onLeave]
    simp [joinedNotLeftStep, Finset.mem_erase, hmem k]
    tauto

theorem applyEvents_invariant (evs : List RoomEvent) :
    ∀ (s : RoomPlayers) (acc : Finset String),
      (s.map Prod.fst).Nodup → (∀ k, hasPlayer s k = true ↔ k ∈ acc) →
      ((applyEvents s evs).map Prod.fst).Nodup ∧
        ∀ k, hasPlayer (applyEvents s evs) k = true ↔ k ∈ evs.foldl joinedNotLeftStep acc := by
  induction evs with
  | nil => exact fun s acc h1 h2 => ⟨h1, h2⟩
  | cons e rest ih =>
    intro s acc h1 h2
    exact ih (applyEvent s e) (joinedNotLeftStep acc e)
      (nodup_keys_applyEvent s e h1) (hasPlayer_applyEvent s acc e h2)

theorem tblGet_tblDel_self (t : List (String × β)) (k : String) :
    tblGet (tblDel t k) k = none := by
  have h : (tblDel t k).find? (fun e => e.1 == k) = none := by
    rw [List.find?_eq_none]
    intro x hx
    simp only [tblDel, List.mem_filter, bne_iff_ne, ne_eq, decide_not] at hx
    simp [hx.2]
  simp [tblGet, h]

theorem playersOnRemove_of_absent (st : ClientState) (k : String)
    (h1 : tblGet st.playerEntities k = none) (h2 : tblGet st.peers k = none)
    (h3 : tblGet st.videoMeshes k = none) : playersOnRemove st k = st := by
  simp [playersOnRemove, h1, h2, h3]

theorem playersOnRemove_entities_none (st : ClientState) (k : String) :
    tblGet (playersOnRemove st k).playerEntities k = none := by
  simp only [playersOnRemove]
  split_ifs <;>
    simp_all [tblGet_tblDel_self, Option.not_isSome_iff_eq_none]

theorem playersOnRemove_peers_none (st : ClientState) (k : String) :
    tblGet (playersOnRemove st k).peers k = none := by
  simp only [playersOnRemove]
  split_ifs <;>
    simp_all [tblGet_tblDel_self, Option.not_isSome_iff_eq_none]

theorem playersOnRemove_videoMeshes_none (st : ClientState) (k : String) :
    tblGet (playersOnRemove st k).videoMeshes k = none := by
  simp only [playersOnRemove]
  split_ifs <;>
    simp_all [tblGet_tblDel_self, Option.not_isSome_iff_eq_none]

theorem clampToBoundaries_y (p : Vec3) : (clampToBoundaries p).y = .num (-1) := by
  simp only [clampToBoundaries]
  split_ifs <;> rfl

theorem clampToBoundaries_x (p : Vec3) :
    (clampToBoundaries p).x =
      (if p.x.jsGt BOUNDARY_LIMIT then .num BOUNDARY_LIMIT
       else if p.x.jsLt (-BOUNDARY_LIMIT) then .num (-BOUNDARY_LIMIT) else p.x) := by
  simp only [clampToBoundaries]
  split_ifs <;> rfl

theorem clampToBoundaries_z (p : Vec3) :
    (clampToBoundaries p).z =
      (if p.z.jsGt BOUNDARY_LIMIT then .num BOUNDARY_LIMIT
       else if p.z.jsLt (-BOUNDARY_LIMIT) then .num (-BOUNDARY_LIMIT) else p.z) := by
  simp only [clampToBoundaries]
  split_ifs <;> rfl

theorem specClampCoord_bounds (c : ℚ) :
    -245 ≤ specClampCoord c ∧ specClampCoord c ≤ 245 := by
  unfold specClampCoord
  split_ifs <;> constructor <;> linarith

theorem isFinite_exists_num {n : JSNum} (h : n.isFinite = true) :
    ∃ a : ℚ, n = .num a := by
  cases n with
  | nan => simp [JSNum.isFinite] at h
  | posInf => simp [JSNum.isFinite] at h
  | negInf => simp [JSNum.isFinite] at h
  | num a => exact ⟨a, rfl⟩

theorem clampCoord_finite_bounds (a : ℚ) :
    ∃ q : ℚ,
      (if (JSNum.num a).jsGt BOUNDARY_LIMIT then JSNum.num BOUNDARY_LIMIT
       else if (JSNum.num a).jsLt (-BOUNDARY_LIMIT) then JSNum.num (-BOUNDARY_LIMIT)
       else JSNum.num a) = .num q ∧ -245 ≤ q ∧ q ≤ 245 := by
  simp only [JSNum.jsGt, JSNum.jsLt, BOUNDARY_LIMIT]
  by_cases h1 : (245 : ℚ) < a
  · exact ⟨245, by simp [h1], by norm_num, by norm_num⟩
  · by_cases h2 : a < -245
    · exact ⟨-245, by simp [h1, h2], by norm_num, by norm_num⟩
    · exact ⟨a, by simp [h1, h2], le_of_not_lt h2, le_of_not_lt h1⟩

/-! ## Claim theorems -/

/-- C1: for every position-update input `(x, y, z)`, of any (finite)
magnitude, the position stored in the Replicated Room State after
processing satisfies `-245 ≤ x' ≤ 245`, `-245 ≤ z' ≤ 245` and
`y' = -1`; in particular processing `updatePosition
{x: 9999, y: 5, z: -9999}` stores `{x: 245, y: -1, z: -245}`. -/
theorem C1_updatePosition_clamped_in_room_state :
    (∀ (s : RoomPlayers) (k : String) (x y z : ℚ) (q : Participant),
        (k, q) ∈ roomUpdatePosition s k x y z →
        -245 ≤ q.x ∧ q.x ≤ 245 ∧ -245 ≤ q.z ∧ q.z ≤ 245 ∧ q.y = -1) ∧
      roomUpdatePosition [("A", ⟨0, -1, 0⟩)] "A" 9999 5 (-9999)
        = [("A", ⟨245, -1, -245⟩)] := by
  constructor
  · intro s k x y z q hq
    simp only [roomUpdatePosition, List.mem_map] at hq
    obtain ⟨e, _, heq⟩ := hq
    by_cases h : (e.1 == k) = true
    · rw [if_pos h] at heq
      have hq' : q = ⟨specClampCoord x, -1, specClampCoord z⟩ :=
        ((Prod.ext_iff.mp heq).2).symm
      obtain ⟨hx1, hx2⟩ := specClampCoord_bounds x
      obtain ⟨hz1, hz2⟩ := specClampCoord_bounds z
      rw [hq']
      exact ⟨hx1, hx2, hz1, hz2, rfl⟩
    · rw [if_neg h] at heq
      subst heq
      simp at h
  · decide

theorem C1_updatePosition_clamped_in_room_state_witness :
    ("A", (⟨245, -1, -245⟩ : Participant)) ∈
        roomUpdatePosition [("A", ⟨0, -1, 0⟩)] "A" 9999 5 (-9999) ∧
      (-245 ≤ (245 : ℚ) ∧ (245 : ℚ) ≤ 245 ∧ -245 ≤ (-245 : ℚ) ∧
        (-245 : ℚ) ≤ 245 ∧ ((-1 : ℚ) = -1)) :=
  ⟨by decide,
   C1_updatePosition_clamped_in_room_state.1 [("A", ⟨0, -1, 0⟩)] "A" 9999 5 (-9999)
     ⟨245, -1, -245⟩ (by decide)⟩

/-- C2: for every finite sequence of join and leave events applied to an
initially empty room, the sessionIds present in the Replicated Room
State are exactly those that have joined and not subsequently left,
with no duplicate entries. -/
theorem C2_room_membership_matches_join_leave_history (evs : List RoomEvent) :
    ((applyEvents [] evs).map Prod.fst).Nodup ∧
      ∀ k, hasPlayer (applyEvents [] evs) k = true ↔ k ∈ joinedNotLeft evs :=
  applyEvents_invariant evs [] ∅ (by simp) (by simp [hasPlayer])

theorem C2_room_membership_matches_join_leave_history_witness :
    hasPlayer
        (applyEvents [] [.join "A" ⟨0, -1, 0⟩, .join "B" ⟨0, -1, 0⟩, .leave "A"]) "B"
        = true ↔
      "B" ∈ joinedNotLeft [.join "A" ⟨0, -1, 0⟩, .join "B" ⟨0, -1, 0⟩, .leave "A"] :=
  (C2_room_membership_matches_join_leave_history _).2 "B"

/-- C3: a `signal` envelope sent by A while the target B is present is
delivered to B exactly once, with `from` equal to A's true sessionId
regardless of any `from` field the sender supplied, and with the type
and payload unmodified. -/
theorem C3_signal_delivered_once_with_true_sender {α : Type} (s : RoomPlayers)
    (A B : String) (m : SignalIn α) (hto : m.«to» = B) (hB : hasPlayer s B = true) :
    relaySignal s A m
      = (s, [(B, { «from» := A, type := m.type, payload := m.payload })]) := by
  subst hto
  simp [relaySignal, hB]

theorem C3_signal_delivered_once_with_true_sender_witness :
    hasPlayer [("B", ⟨0, -1, 0⟩)] "B" = true ∧
      relaySignal [("B", ⟨0, -1, 0⟩)] "A"
          ({ «to» := "B", claimedFrom := some "C", type := "offer",
             payload := (7 : ℕ) })
        = ([("B", ⟨0, -1, 0⟩)],
           [("B", { «from» := "A", type := "offer", payload := (7 : ℕ) })]) :=
  ⟨by decide,
   C3_signal_delivered_once_with_true_sender _ "A" "B" _ rfl (by decide)⟩

/-- C4: a `signal` envelope whose `to` names a sessionId with no
resolvable active target delivers nothing and leaves all state
unchanged: the relay drops it without touching the room state, and the
client-side handler, given a delivery naming an unknown peer, returns
at once with its tables unchanged and sends nothing. -/
theorem C4_unresolvable_signal_target_silently_dropped {α β : Type}
    (s : RoomPlayers) (sender : String) (m : SignalIn α)
    (hto : hasPlayer s m.«to» = false)
    (st : ClientState) (d : SignalOut β) (mkAnswer : Nat → β)
    (hpc : tblGet st.peers d.«from» = none) :
    relaySignal s sender m = (s, []) ∧ onSignalMessage st d mkAnswer = (st, []) :=
  ⟨by simp [relaySignal, hto], by simp [onSignalMessage, hpc]⟩

theorem C4_unresolvable_signal_target_silently_dropped_witness :
    hasPlayer [] "B" = false ∧
      tblGet (ClientState.mk [] [] [] []).peers "A" = none ∧
      relaySignal [] "A"
          ({ «to» := "B", claimedFrom := none, type := "offer", payload := (0 : ℕ) })
        = ([], []) ∧
      onSignalMessage (ClientState.mk [] [] [] [])
          ({ «from» := "A", type := "offer", payload := (0 : ℕ) }) (fun _ => 0)
        = (ClientState.mk [] [] [] [], []) := by
  obtain ⟨h1, h2⟩ := C4_unresolvable_signal_target_silently_dropped
    [] "A" ({ «to» := "B", claimedFrom := none, type := "offer", payload := (0 : ℕ) })
    rfl (ClientState.mk [] [] [] [])
    ({ «from» := "A", type := "offer", payload := (0 : ℕ) }) (fun _ => 0) rfl
  exact ⟨rfl, rfl, h1, h2⟩

/-- C5: leave/removal is idempotent: the client-side removal handler
applied twice in succession equals applying it once; removal of an
already-absent sessionId is a no-op that changes no other entry; the
room-side leave is likewise idempotent. -/
theorem C5_leave_and_remove_idempotent :
    (∀ (st : ClientState) (k : String),
        playersOnRemove (playersOnRemove st k) k = playersOnRemove st k) ∧
      (∀ (st : ClientState) (k : String),
        tblGet st.playerEntities k = none → tblGet st.peers k = none →
        tblGet st.videoMeshes k = none → playersOnRemove st k = st) ∧
      (∀ (s : RoomPlayers) (k : String), onLeave (onLeave s k) k = onLeave s k) := by
  refine ⟨fun st k => ?_, playersOnRemove_of_absent, fun s k => ?_⟩
  · exact playersOnRemove_of_absent _ k (playersOnRemove_entities_none st k)
      (playersOnRemove_peers_none st k) (playersOnRemove_videoMeshes_none st k)
  · simp [onLeave, List.filter_filter]

theorem C5_leave_and_remove_idempotent_witness :
    tblGet (ClientState.mk [("B", 1)] [] [("B", 2)] []).playerEntities "A" = none ∧
      tblGet (ClientState.mk [("B", 1)] [] [("B", 2)] []).peers "A" = none ∧
      tblGet (ClientState.mk [("B", 1)] [] [("B", 2)] []).videoMeshes "A" = none ∧
      playersOnRemove (ClientState.mk [("B", 1)] [] [("B", 2)] []) "A"
        = ClientState.mk [("B", 1)] [] [("B", 2)] [] ∧
      playersOnRemove
          (playersOnRemove (ClientState.mk [("A", 1)] [] [("A", 2)] [("A", 3)]) "A") "A"
        = playersOnRemove (ClientState.mk [("A", 1)] [] [("A", 2)] [("A", 3)]) "A" ∧
      onLeave (onLeave [("A", ⟨0, -1, 0⟩)] "A") "A" = onLeave [("A", ⟨0, -1, 0⟩)] "A" :=
  ⟨by decide, by decide, by decide,
   C5_leave_and_remove_idempotent.2.1 _ "A" (by decide) (by decide) (by decide),
   C5_leave_and_remove_idempotent.1 _ "A",
   C5_leave_and_remove_idempotent.2.2 _ "A"⟩

/-- C6: for every pair of distinct sessionIds, the strict string
greater-than tie-break evaluated at both peers designates exactly one
of the two as the offer initiator — never both and never neither. -/
theorem C6_offer_tie_break_exactly_one_initiator (a b : String) (h : a ≠ b) :
    (initiatesOffer a b = true ∧ initiatesOffer b a = false) ∨
      (initiatesOffer a b = false ∧ initiatesOffer b a = true) := by
  simp only [initiatesOffer, decide_eq_true_eq, decide_eq_false_iff_not]
  rcases lt_trichotomy a b with hlt | heq | hgt
  · exact Or.inr ⟨lt_asymm hlt, hlt⟩
  · exact absurd heq h
  · exact Or.inl ⟨hgt, lt_asymm hgt⟩

theorem C6_offer_tie_break_exactly_one_initiator_witness :
    ("ab" : String) ≠ "ba" ∧
      ((initiatesOffer "ab" "ba" = true ∧ initiatesOffer "ba" "ab" = false) ∨
        (initiatesOffer "ab" "ba" = false ∧ initiatesOffer "ba" "ab" = true)) :=
  ⟨by decide, C6_offer_tie_break_exactly_one_initiator "ab" "ba" (by decide)⟩

/-- C7: a second join attempt for a sessionId that is already an active
participant is rejected: the players map, including the existing
Participant record and its position, is left unchanged — no overwrite
occurs. -/
theorem C7_duplicate_join_rejected (s : RoomPlayers) (k : String) (p : Participant)
    (h : hasPlayer s k = true) : onJoin s k p = s := by
  simp [onJoin, h]

theorem C7_duplicate_join_rejected_witness :
    hasPlayer [("A", ⟨1, -1, 2⟩)] "A" = true ∧
      onJoin [("A", ⟨1, -1, 2⟩)] "A" ⟨9, 9, 9⟩ = [("A", ⟨1, -1, 2⟩)] :=
  ⟨by decide, C7_duplicate_join_rejected [("A", ⟨1, -1, 2⟩)] "A" ⟨9, 9, 9⟩ (by decide)⟩

/-- C8: the participant-removal handler attempts all three teardowns:
for every client state — hence every combination of present and absent
handles — after the handler runs, none of the visual-entity,
peer-connection or video-mesh tables contains an entry for the removed
sessionId. -/
theorem C8_remove_tears_down_all_three_tables (st : ClientState) (k : String) :
    tblGet (playersOnRemove st k).playerEntities k = none ∧
      tblGet (playersOnRemove st k).peers k = none ∧
      tblGet (playersOnRemove st k).videoMeshes k = none :=
  ⟨playersOnRemove_entities_none st k, playersOnRemove_peers_none st k,
   playersOnRemove_videoMeshes_none st k⟩

/-- C9: the client clamps before transmitting: for every proposed
target position with finite coordinates, the `updatePosition` message
the client sends already satisfies `-245 ≤ x ≤ 245`, `-245 ≤ z ≤ 245`
and `y = -1`. -/
theorem C9_client_clamps_before_send (p : Vec3)
    (hx : p.x.isFinite = true) (_hy : p.y.isFinite = true)
    (hz : p.z.isFinite = true) :
    ∃ qx qz : ℚ,
      (updatePlayerPosition p).2.x = .num qx ∧
      (updatePlayerPosition p).2.z = .num qz ∧
      -245 ≤ qx ∧ qx ≤ 245 ∧ -245 ≤ qz ∧ qz ≤ 245 ∧
      (updatePlayerPosition p).2.y = .num (-1) := by
  obtain ⟨a, ha⟩ := isFinite_exists_num hx
  obtain ⟨c, hc⟩ := isFinite_exists_num hz
  obtain ⟨qx, hqx, hqx1, hqx2⟩ := clampCoord_finite_bounds a
  obtain ⟨qz, hqz, hqz1, hqz2⟩ := clampCoord_finite_bounds c
  refine ⟨qx, qz, ?_, ?_, hqx1, hqx2, hqz1, hqz2, ?_⟩
  · rw [show (updatePlayerPosition p).2.x = (clampToBoundaries p).x from rfl,
      clampToBoundaries_x, ha]
    exact hqx
  · rw [show (updatePlayerPosition p).2.z = (clampToBoundaries p).z from rfl,
      clampToBoundaries_z, hc]
    exact hqz
  · rw [show (updatePlayerPosition p).2.y = (clampToBoundaries p).y from rfl,
      clampToBoundaries_y]

theorem C9_client_clamps_before_send_witness :
    (JSNum.num 300).isFinite = true ∧ (JSNum.num 5).isFinite = true ∧
      (JSNum.num (-300)).isFinite = true ∧
      (∃ qx qz : ℚ,
        (updatePlayerPosition ⟨.num 300, .num 5, .num (-300)⟩).2.x = .num qx ∧
        (updatePlayerPosition ⟨.num 300, .num 5, .num (-300)⟩).2.z = .num qz ∧
        -245 ≤ qx ∧ qx ≤ 245 ∧ -245 ≤ qz ∧ qz ≤ 245 ∧
        (updatePlayerPosition ⟨.num 300, .num 5, .num (-300)⟩).2.y = .num (-1)) :=
  ⟨rfl, rfl, rfl,
   C9_client_clamps_before_send ⟨.num 300, .num 5, .num (-300)⟩ rfl rfl rfl⟩

/-- C10: NaN passes through the clamp: if the proposed `x` (resp. `z`)
coordinate is NaN, `clampToBoundaries` returns NaN for that coordinate
(both boundary comparisons are false), still forces `y` to -1, and the
NaN coordinate is forwarded in the resulting `updatePosition`
message. -/
theorem C10_nan_passes_through_clamp (p : Vec3) :
    (p.x = .nan →
      (clampToBoundaries p).x = .nan ∧ (updatePlayerPosition p).2.x = .nan) ∧
      (p.z = .nan →
        (clampToBoundaries p).z = .nan ∧ (updatePlayerPosition p).2.z = .nan) ∧
      (clampToBoundaries p).y = .num (-1) := by
  refine ⟨fun hx => ?_, fun hz => ?_, clampToBoundaries_y p⟩
  · have h : (clampToBoundaries p).x = .nan := by
      rw [clampToBoundaries_x, hx]
      simp [JSNum.jsGt, JSNum.jsLt]
    exact ⟨h, h⟩
  · have h : (clampToBoundaries p).z = .nan := by
      rw [clampToBoundaries_z, hz]
      simp [JSNum.jsGt, JSNum.jsLt]
    exact ⟨h, h⟩

theorem C10_nan_passes_through_clamp_witness :
    (Vec3.mk .nan (.num 5) (.num 3)).x = .nan ∧
      ((clampToBoundaries ⟨.nan, .num 5, .num 3⟩).x = .nan ∧
        (updatePlayerPosition ⟨.nan, .num 5, .num 3⟩).2.x = .nan) :=
  ⟨rfl, (C10_nan_passes_through_clamp ⟨.nan, .num 5, .num 3⟩).1 rfl⟩
